import Mathlib

/-!
A shallow embedding, in Lean 4, of the termbox library core
(`src/termbox.c`, `src/termbox.h`): the double-buffered cell renderer,
the cell buffer operations, the UTF-8 encoder, and the event-loop
overflow handling.  Machine `unsigned int` arithmetic is modelled on
`Nat` with an explicit `% 2^32` where the C code can overflow;
C `int` values that can be negative are modelled on `Int`.
Terminal output is modelled as a trace of emitted escape items.
-/

namespace Termbox

/-- Word size of C `unsigned int` in this embedding. -/
def U32 : Nat := 4294967296

/- ---------------- constants from termbox.h ---------------- -/

def TB_BLACK : Nat := 0x00
def TB_WHITE : Nat := 0x07
def TB_BOLD : Nat := 0x10
def TB_UNDERLINE : Nat := 0x20
def TB_BLINK : Nat := 0x40

def TB_EUNSUPPORTED_TERMINAL : Int := -1
def TB_EFAILED_TO_OPEN_TTY : Int := -2

def TB_INPUT_ESC : Nat := 1
def TB_INPUT_ALT : Nat := 2

/-- `struct tb_cell { uint32_t ch; uint16_t fg; uint16_t bg; }`. -/
structure tb_cell where
  ch : Nat
  fg : Nat
  bg : Nat
deriving DecidableEq, Repr

/-- The cell written by `cellbuf_clear`: `(' ', TB_WHITE, TB_BLACK)`. -/
def blankCell : tb_cell := ⟨32, TB_WHITE, TB_BLACK⟩

/- ---------------- cell buffers ---------------- -/

/-- `struct cellbuf`.  The dense row-major `cells` array is modelled as a
function from flat index to cell; only indices `< width * height` are
meaningful. -/
structure cellbuf where
  width : Nat
  height : Nat
  cells : Nat → tb_cell

/-- The `CELL(buf, x, y)` macro: `cells[y * width + x]`. -/
def CELL (buf : cellbuf) (x y : Nat) : tb_cell :=
  buf.cells (y * buf.width + x)

/-- `cellbuf_init`: `malloc` leaves the array with unspecified contents,
modelled by an explicit `uninit` function supplied by the caller. -/
def cellbuf_init (width height : Nat) (uninit : Nat → tb_cell) : cellbuf :=
  { width := width, height := height, cells := uninit }

/-- `cellbuf_clear`: the loop writes `(' ', TB_WHITE, TB_BLACK)` to every
index `i < width * height`. -/
def cellbuf_clear (buf : cellbuf) : cellbuf :=
  { buf with cells := fun i =>
      if i < buf.width * buf.height then blankCell else buf.cells i }

/-- `cellbuf_resize`: no-op on matching dimensions; otherwise allocate,
clear, then copy `minw` cells of each of the first `minh` rows from the
old storage (`memcpy` row loop), indexing the new array by `k = i*width+j`. -/
def cellbuf_resize (buf : cellbuf) (width height : Nat)
    (uninit : Nat → tb_cell) : cellbuf :=
  if buf.width = width ∧ buf.height = height then buf
  else
    let oldw := buf.width
    let oldh := buf.height
    let oldcells := buf.cells
    let nb := cellbuf_clear (cellbuf_init width height uninit)
    let minw := min width oldw
    let minh := min height oldh
    { nb with cells := fun k =>
        if k % width < minw ∧ k / width < minh then
          oldcells (k / width * oldw + k % width)
        else nb.cells k }

/- ---------------- UTF-8 encoder (utf8_unicode_to_char) ---------------- -/

/-- The filling loop of `utf8_unicode_to_char`: for `i = len-1` down to `1`,
`out[i] = (c & 0x3f) | 0x80; c >>= 6`.  `utf8_tail c n` is the list of the
`n` continuation bytes `out[1..len-1]`, in output order. -/
def utf8_tail (c : Nat) : Nat → List Nat
  | 0 => []
  | n + 1 => utf8_tail (c >>> 6) n ++ [(c &&& 0x3f) ||| 0x80]

/-- The `(first, len)` selection chain of `utf8_unicode_to_char`. -/
def utf8_first_len (c : Nat) : Nat × Nat :=
  if c < 0x80 then (0, 1)
  else if c < 0x800 then (0xc0, 2)
  else if c < 0x10000 then (0xe0, 3)
  else if c < 0x200000 then (0xf0, 4)
  else if c < 0x4000000 then (0xf8, 5)
  else (0xfc, 6)

/-- `utf8_unicode_to_char`: pick `(first, len)` from the range of `c`,
fill the continuation bytes, then `out[0] = (c >>> 6*(len-1)) | first`.
Returns the byte sequence written. -/
def utf8_unicode_to_char (c : Nat) : List Nat :=
  let fl := utf8_first_len c
  ((c >>> (6 * (fl.2 - 1))) ||| fl.1) :: utf8_tail c (fl.2 - 1)

/-- Reference decoder, continuation phase: consume exactly `n` bytes, each
required to be `0x80 ≤ b < 0xc0`, accumulating 6 bits per byte. -/
def utf8_decode_cont (acc : Nat) : Nat → List Nat → Option Nat
  | 0, [] => some acc
  | 0, _ :: _ => none
  | _ + 1, [] => none
  | n + 1, b :: bs =>
      if 0x80 ≤ b ∧ b < 0xc0 then utf8_decode_cont (acc * 64 + (b - 0x80)) n bs
      else none

/-- Reference decoder following the classical UTF-8 rules: the first byte
selects the sequence length (1-6) and contributes its low bits, each
continuation byte contributes 6 bits. -/
def utf8_decode : List Nat → Option Nat
  | [] => none
  | b0 :: bs =>
      if b0 < 0x80 then (if bs = [] then some b0 else none)
      else if b0 < 0xc0 then none
      else if b0 < 0xe0 then utf8_decode_cont (b0 - 0xc0) 1 bs
      else if b0 < 0xf0 then utf8_decode_cont (b0 - 0xe0) 2 bs
      else if b0 < 0xf8 then utf8_decode_cont (b0 - 0xf0) 3 bs
      else if b0 < 0xfc then utf8_decode_cont (b0 - 0xf8) 4 bs
      else if b0 < 0xfe then utf8_decode_cont (b0 - 0xfc) 5 bs
      else none

/- ---------------- terminal output trace ---------------- -/

/-- One escape item written to the tty output stream.  `sgr` and
`moveCursor` carry the parameters substituted into the terminfo format
strings; `chr` carries the UTF-8 bytes of a cell character. -/
inductive OutputItem where
  | sgr0
  | sgr (fg bg : Nat)
  | bold
  | blink
  | moveCursor (row col : Nat)
  | chr (bytes : List Nat)
  | clearScreen
  | enterCa
  | exitCa
  | enterKeypad
  | exitKeypad
  | showCursor
  | hideCursor
deriving DecidableEq, Repr

/- ---------------- ring buffer (input) ---------------- -/

/-- Modelled from the spec: the ring buffer implementation
(`init_ringbuffer`, `ringbuffer_free_space`, `ringbuffer_push`) lives in a
file of this repository that is not under `src/`; only its declarations
and callers are visible.  Spec §3/§4.3: a fixed-capacity byte FIFO with
`0 ≤ size ≤ capacity` and `free_space == capacity - size`; wrap-around is
internal and the decoder sees a logical byte stream, so the contents are
modelled as the logical byte list. -/
structure ringbuffer where
  data : List Nat
  capacity : Nat
deriving DecidableEq, Repr

/-- Modelled from the spec: `free_space == capacity - size`. -/
def ringbuffer_free_space (r : ringbuffer) : Nat :=
  r.capacity - r.data.length

/-- Modelled from the spec: `push(bytes)` appends to the logical stream
(precondition `free_space ≥ len(bytes)` checked by the caller). -/
def ringbuffer_push (r : ringbuffer) (bs : List Nat) : ringbuffer :=
  { r with data := r.data ++ bs }

/-- Modelled from the spec: `init_ringbuffer(&inbuf, 4096)` yields an
empty ring of the given capacity. -/
def init_ringbuffer (cap : Nat) : ringbuffer :=
  { data := [], capacity := cap }

/- ---------------- session state ---------------- -/

/-- The process-wide session state of termbox.c: the two cell buffers,
terminal dimensions, the input ring, the tty handles and descriptor
numbers, the renderer caches (the function-static `lastfg`/`lastbg` of
`send_attr` and `lastx`/`lasty` of `send_char`), the volatile resize
flag, and the trace of bytes written to the tty output stream. -/
structure TermState where
  back_buffer : cellbuf
  front_buffer : cellbuf
  termw : Nat
  termh : Nat
  inputmode : Nat
  inbuf : ringbuffer
  out_file : Option Nat
  in_file : Option Nat
  out_fileno : Nat
  in_fileno : Nat
  lastfg : Nat
  lastbg : Nat
  lastx : Int
  lasty : Int
  sigwinch_r : Bool
  output : List OutputItem

/-- `LAST_ATTR_INIT`: the sentinel initial value of `lastfg`/`lastbg`. -/
def LAST_ATTR_INIT : Nat := 0xFFFF

/-- `LAST_COORD_INIT` (`0xFFFFFFFE`) converted to a C `int`: `-2`. -/
def LAST_COORD_INIT : Int := -2

/-- The state of the static globals at program start: zero-initialized
buffers and handles, `inputmode = TB_INPUT_ESC`, sentinel renderer
caches, no pending resize, nothing written. -/
def initialState : TermState where
  back_buffer := ⟨0, 0, fun _ => ⟨0, 0, 0⟩⟩
  front_buffer := ⟨0, 0, fun _ => ⟨0, 0, 0⟩⟩
  termw := 0
  termh := 0
  inputmode := TB_INPUT_ESC
  inbuf := ⟨[], 0⟩
  out_file := none
  in_file := none
  out_fileno := 0
  in_fileno := 0
  lastfg := LAST_ATTR_INIT
  lastbg := LAST_ATTR_INIT
  lastx := LAST_COORD_INIT
  lasty := LAST_COORD_INIT
  sigwinch_r := false
  output := []

/- ---------------- renderer primitives ---------------- -/

/-- `send_attr(fg, bg)`: when `(fg, bg)` differs from the cached pair,
emit `SGR0`, then `SGR(fg & 0x0F, bg & 0x0F)`, then the BOLD string when
`fg & TB_BOLD`, then the BLINK string when `bg & TB_BOLD` (the source
tests the background against `TB_BOLD`, not `TB_BLINK`); update the
cache. -/
def send_attr (s : TermState) (fg bg : Nat) : TermState :=
  if fg ≠ s.lastfg ∨ bg ≠ s.lastbg then
    { s with
      output := s.output
        ++ [OutputItem.sgr0, OutputItem.sgr (fg &&& 0x0F) (bg &&& 0x0F)]
        ++ (if fg &&& TB_BOLD ≠ 0 then [OutputItem.bold] else [])
        ++ (if bg &&& TB_BOLD ≠ 0 then [OutputItem.blink] else []),
      lastfg := fg,
      lastbg := bg }
  else s

/-- `send_char(x, y, c)`: emit a cursor move unless `(int)x - 1 = lastx`
and `y = lasty` (the move is to 1-based `(y+1, x+1)`), update the cached
coordinates, then emit the UTF-8 bytes of `c`. -/
def send_char (s : TermState) (x y : Nat) (c : Nat) : TermState :=
  let s1 :=
    if (x : Int) - 1 ≠ s.lastx ∨ (y : Int) ≠ s.lasty then
      { s with output := s.output ++ [OutputItem.moveCursor (y + 1) (x + 1)] }
    else s
  { s1 with
    lastx := (x : Int),
    lasty := (y : Int),
    output := s1.output ++ [OutputItem.chr (utf8_unicode_to_char c)] }

/-- `send_clear()`: `send_attr(TB_WHITE, TB_BLACK)` then the clear-screen
string (the `fflush` has no effect on the trace). -/
def send_clear (s : TermState) : TermState :=
  let s1 := send_attr s TB_WHITE TB_BLACK
  { s1 with output := s1.output ++ [OutputItem.clearScreen] }

/-- `check_sigwinch()`: when the resize flag is set, re-query the window
size (`sz`, the result of the `TIOCGWINSZ` ioctl), resize both buffers
(fresh `malloc` contents given by `uninitB`/`uninitF`), clear the front
buffer, emit `send_clear`, and drop the flag. -/
def check_sigwinch (s : TermState) (sz : Nat × Nat)
    (uninitB uninitF : Nat → tb_cell) : TermState :=
  if s.sigwinch_r then
    let s1 := { s with termw := sz.1, termh := sz.2 }
    let s2 := { s1 with
      back_buffer := cellbuf_resize s1.back_buffer s1.termw s1.termh uninitB }
    let s3 := { s2 with
      front_buffer := cellbuf_resize s2.front_buffer s2.termw s2.termh uninitF }
    let s4 := { s3 with front_buffer := cellbuf_clear s3.front_buffer }
    let s5 := send_clear s4
    { s5 with sigwinch_r := false }
  else s

/- ---------------- back-buffer writers ---------------- -/

/-- `tb_put_cell(x, y, cell)`: out-of-bounds writes are dropped; otherwise
the cell at `(x, y)` of the back buffer is overwritten. -/
def tb_put_cell (s : TermState) (x y : Nat) (cell : tb_cell) : TermState :=
  if x ≥ s.back_buffer.width ∨ y ≥ s.back_buffer.height then s
  else
    { s with back_buffer := { s.back_buffer with cells := (fun k =>
        if k = y * s.back_buffer.width + x then cell
        else s.back_buffer.cells k) } }

/-- `tb_change_cell(x, y, ch, fg, bg) = tb_put_cell(x, y, {ch, fg, bg})`. -/
def tb_change_cell (s : TermState) (x y : Nat) (ch fg bg : Nat) : TermState :=
  tb_put_cell s x y ⟨ch, fg, bg⟩

/-- `tb_blit(x, y, w, h, cells)`: the guard
`x+w >= width || y+h >= height` (unsigned arithmetic) drops the whole
call; otherwise row `sy < h` of `cells` is `memcpy`ed to the back buffer
at indices `(y+sy)*width + x + j`, `j < w`. -/
def tb_blit (s : TermState) (x y w h : Nat) (cells : Nat → tb_cell) :
    TermState :=
  if (x + w) % U32 ≥ s.back_buffer.width ∨
     (y + h) % U32 ≥ s.back_buffer.height then s
  else
    let bw := s.back_buffer.width
    { s with back_buffer := { s.back_buffer with cells := (fun k =>
        if y ≤ k / bw ∧ k / bw < y + h ∧ x ≤ k % bw ∧ k % bw < x + w then
          cells ((k / bw - y) * w + (k % bw - x))
        else s.back_buffer.cells k) } }

/- ---------------- present ---------------- -/

/-- The body of the inner loop of `tb_present` at `(x, y)`: skip when the
back cell equals the front cell byte-for-byte; otherwise send attributes
and the character and copy the back cell into the front buffer. -/
def present_cell (s : TermState) (x y : Nat) : TermState :=
  let back := CELL s.back_buffer x y
  let front := CELL s.front_buffer x y
  if back = front then s
  else
    let s1 := send_attr s back.fg back.bg
    let s2 := send_char s1 x y back.ch
    { s2 with front_buffer := { s2.front_buffer with cells := (fun k =>
        if k = y * s2.front_buffer.width + x then back
        else s2.front_buffer.cells k) } }

/-- The inner loop of `tb_present`: columns `0, 1, …, n-1` of row `y`. -/
def present_cols (y : Nat) (s : TermState) : Nat → TermState
  | 0 => s
  | n + 1 => present_cell (present_cols y s n) n y

/-- The outer loop of `tb_present`: rows `0, 1, …, m-1`, each scanned over
`w` columns. -/
def present_rows (w : Nat) (s : TermState) : Nat → TermState
  | 0 => s
  | m + 1 => present_cols m (present_rows w s m) w

/-- `tb_present()`: drain a pending resize, then walk the grid over the
front buffer's dimensions (the `fflush` has no effect on the trace). -/
def tb_present (s : TermState) (sz : Nat × Nat)
    (uninitB uninitF : Nat → tb_cell) : TermState :=
  let s1 := check_sigwinch s sz uninitB uninitF
  present_rows s1.front_buffer.width s1 s1.front_buffer.height

/-- `tb_clear()`: drain a pending resize, then clear the back buffer. -/
def tb_clear (s : TermState) (sz : Nat × Nat)
    (uninitB uninitF : Nat → tb_cell) : TermState :=
  let s1 := check_sigwinch s sz uninitB uninitF
  { s1 with back_buffer := cellbuf_clear s1.back_buffer }

/- ---------------- init / shutdown ---------------- -/

/-- The environment observed by `tb_init`: what `fopen("/dev/tty", ...)`
returns for the output and input streams (`none` on failure), whether
`init_term()` recognizes the terminal, and the window size reported by
the `TIOCGWINSZ` ioctl. -/
structure InitEnv where
  ttyOut : Option Nat
  ttyIn : Option Nat
  termOk : Bool
  winsz : Nat × Nat

/-- `tb_init()`: assign the tty handles from the two `fopen` calls; on
`NULL` return `TB_EFAILED_TO_OPEN_TTY`.  Assign the descriptor numbers;
if `init_term()` fails return `TB_EUNSUPPORTED_TERMINAL`.  Otherwise
switch to raw mode, emit enter-ca / enter-keypad / hide-cursor /
clear-screen, query the window size, allocate and clear both buffers,
and allocate the 4096-byte ring.  Returns the C return value paired with
the resulting global state. -/
def tb_init (env : InitEnv) (s : TermState)
    (uninitB uninitF : Nat → tb_cell) : Int × TermState :=
  let s1 := { s with out_file := env.ttyOut, in_file := env.ttyIn }
  if s1.out_file = none ∨ s1.in_file = none then
    (TB_EFAILED_TO_OPEN_TTY, s1)
  else
    let s2 := { s1 with
      out_fileno := s1.out_file.getD 0,
      in_fileno := s1.in_file.getD 0 }
    if ¬ env.termOk then (TB_EUNSUPPORTED_TERMINAL, s2)
    else
      let s3 := { s2 with output := s2.output
        ++ [OutputItem.enterCa, OutputItem.enterKeypad,
            OutputItem.hideCursor, OutputItem.clearScreen] }
      let s4 := { s3 with termw := env.winsz.1, termh := env.winsz.2 }
      let s5 := { s4 with
        back_buffer :=
          cellbuf_clear (cellbuf_init s4.termw s4.termh uninitB),
        front_buffer :=
          cellbuf_clear (cellbuf_init s4.termw s4.termh uninitF) }
      (0, { s5 with inbuf := init_ringbuffer 4096 })

/-- `tb_shutdown()`: emit show-cursor, SGR0, clear-screen, exit-ca,
exit-keypad; restore the termios and release the buffers and the ring
(the freed storage keeps its stale dimensions; the renderer caches are
not touched). -/
def tb_shutdown (s : TermState) : TermState :=
  { s with
    output := s.output
      ++ [OutputItem.showCursor, OutputItem.sgr0, OutputItem.clearScreen,
          OutputItem.exitCa, OutputItem.exitKeypad],
    out_file := none,
    in_file := none }

/- ---------------- event loop ---------------- -/

/-- `struct tb_key_event`. -/
structure tb_key_event where
  ch : Nat
  key : Nat
  mod : Nat
deriving DecidableEq, Repr

/-- One outcome of the `select` + `fread` step of the wait loop:
either `select` timed out, or `fread` returned the given bytes
(`bytes []` is the zero read produced by resize delivery). -/
inductive ReadOutcome where
  | timedOut
  | bytes (bs : List Nat)

/-- The `while (1)` loop of `wait_fill_event`, driven by the script of
successive `select`/`fread` outcomes (an exhausted script behaves as a
timeout).  `extract` abstracts `extract_event` (source not under `src/`):
on success it returns the event and the ring with the recognized prefix
consumed.  Returns the C return value, the final ring, and the event. -/
def wfe_loop (extract : ringbuffer → Option (tb_key_event × ringbuffer))
    (r : ringbuffer) :
    List ReadOutcome → Int × ringbuffer × Option tb_key_event
  | [] => (0, r, none)
  | ReadOutcome.timedOut :: _ => (0, r, none)
  | ReadOutcome.bytes bs :: rest =>
      if bs.length = 0 then wfe_loop extract r rest
      else if ringbuffer_free_space r < bs.length then (-1, r, none)
      else
        let r1 := ringbuffer_push r bs
        match extract r1 with
        | some (ev, r2) => (1, r2, some ev)
        | none => wfe_loop extract r1 rest

/-- `wait_fill_event`: first try `extract_event` on the buffered bytes;
on failure enter the wait-and-fill loop. -/
def wait_fill_event
    (extract : ringbuffer → Option (tb_key_event × ringbuffer))
    (r : ringbuffer) (reads : List ReadOutcome) :
    Int × ringbuffer × Option tb_key_event :=
  match extract r with
  | some (ev, r1) => (1, r1, some ev)
  | none => wfe_loop extract r reads

/- ---------------- write sequences ---------------- -/

/-- One back-buffer write operation of the public API. -/
inductive WriteOp where
  | put (x y : Nat) (cell : tb_cell)
  | change (x y ch fg bg : Nat)
  | blit (x y w h : Nat) (cells : Nat → tb_cell)

/-- Apply one write operation. -/
def applyWrite (s : TermState) : WriteOp → TermState
  | WriteOp.put x y cell => tb_put_cell s x y cell
  | WriteOp.change x y ch fg bg => tb_change_cell s x y ch fg bg
  | WriteOp.blit x y w h cells => tb_blit s x y w h cells

/-- Apply a sequence of write operations, left to right. -/
def applyWrites (s : TermState) : List WriteOp → TermState
  | [] => s
  | op :: ops => applyWrites (applyWrite s op) ops

/-- A write operation is in bounds for a `W × H` back buffer. -/
def WriteOp.inBounds (W H : Nat) : WriteOp → Prop
  | WriteOp.put x y _ => x < W ∧ y < H
  | WriteOp.change x y _ _ _ => x < W ∧ y < H
  | WriteOp.blit x y w h _ => x + w < W ∧ y + h < H

/- ---------------- concrete fixtures ---------------- -/

/-- A junk fill standing for uninitialized `malloc` storage. -/
def uninitJunk : Nat → tb_cell := fun _ => ⟨99, 9, 9⟩

/-- A concrete source rectangle for blit counterexamples: all cells
`('A', TB_WHITE, TB_BLACK)`. -/
def cellsA : Nat → tb_cell := fun _ => ⟨65, 7, 0⟩

/-- A concrete session state with cleared 2×2 buffers, as produced by a
successful `tb_init` on a 2×2 terminal (output trace omitted). -/
def state2x2 : TermState :=
  { initialState with
    back_buffer := ⟨2, 2, fun _ => blankCell⟩,
    front_buffer := ⟨2, 2, fun _ => blankCell⟩,
    termw := 2,
    termh := 2,
    inbuf := init_ringbuffer 4096 }

/-
-------------------------------------------------------------------
Theorems
-------------------------------------------------------------------
-/

/- ---------------- arithmetic bridges for the bit operations ---------------- -/

theorem and_63_eq_mod (x : Nat) : x &&& 63 = x % 64 := by
  have h := Nat.and_pow_two_sub_one_eq_mod x 6
  norm_num at h
  exact h

theorem shiftRight_6 (x : Nat) : x >>> 6 = x / 64 := by
  rw [Nat.shiftRight_eq_div_pow]

theorem shiftRight_12 (x : Nat) : x >>> 12 = x / 4096 := by
  rw [Nat.shiftRight_eq_div_pow]

theorem shiftRight_18 (x : Nat) : x >>> 18 = x / 262144 := by
  rw [Nat.shiftRight_eq_div_pow]

theorem lor_128 : ∀ a < 64, a ||| 128 = 128 + a := by decide

theorem lor_192 : ∀ a < 32, a ||| 192 = 192 + a := by decide

theorem lor_224 : ∀ a < 16, a ||| 224 = 224 + a := by decide

theorem lor_240 : ∀ a < 8, a ||| 240 = 240 + a := by decide

theorem cont_byte (c : Nat) : (c &&& 0x3f) ||| 0x80 = 128 + c % 64 := by
  rw [and_63_eq_mod]
  exact lor_128 _ (Nat.mod_lt _ (by norm_num))

/- ---------------- the encoder's four relevant branches ---------------- -/

theorem enc_one (c : Nat) (h : c < 0x80) :
    utf8_unicode_to_char c = [c] := by
  have hfl : utf8_first_len c = (0, 1) := by
    unfold utf8_first_len
    rw [if_pos h]
  simp [utf8_unicode_to_char, hfl, utf8_tail]

theorem enc_two (c : Nat) (h1 : 0x80 ≤ c) (h2 : c < 0x800) :
    utf8_unicode_to_char c = [192 + c / 64, 128 + c % 64] := by
  have hfl : utf8_first_len c = (0xc0, 2) := by
    unfold utf8_first_len
    rw [if_neg (by omega), if_pos h2]
  have hq : c / 64 < 32 := by omega
  simp only [utf8_unicode_to_char, hfl]
  norm_num [utf8_tail, cont_byte, shiftRight_6, lor_192 _ hq]

theorem enc_three (c : Nat) (h1 : 0x800 ≤ c) (h2 : c < 0x10000) :
    utf8_unicode_to_char c =
      [224 + c / 4096, 128 + c / 64 % 64, 128 + c % 64] := by
  have hfl : utf8_first_len c = (0xe0, 3) := by
    unfold utf8_first_len
    rw [if_neg (by omega), if_neg (by omega), if_pos h2]
  have hq : c / 4096 < 16 := by omega
  simp only [utf8_unicode_to_char, hfl]
  norm_num [utf8_tail, cont_byte, shiftRight_6, shiftRight_12,
    lor_224 _ hq, Nat.div_div_eq_div_mul]

theorem enc_four (c : Nat) (h1 : 0x10000 ≤ c) (h2 : c < 0x200000) :
    utf8_unicode_to_char c =
      [240 + c / 262144, 128 + c / 4096 % 64, 128 + c / 64 % 64,
       128 + c % 64] := by
  have hfl : utf8_first_len c = (0xf0, 4) := by
    unfold utf8_first_len
    rw [if_neg (by omega), if_neg (by omega), if_neg (by omega), if_pos h2]
  have hq : c / 262144 < 8 := by omega
  simp only [utf8_unicode_to_char, hfl]
  norm_num [utf8_tail, cont_byte, shiftRight_6, shiftRight_12, shiftRight_18,
    lor_240 _ hq, Nat.div_div_eq_div_mul]

/-- Claim C9: for every Unicode scalar `c` in `[0, 0x10FFFF]` excluding the
surrogate range, decoding (by the classical UTF-8 rules) the byte sequence
produced by `utf8_unicode_to_char` yields `c` back. -/
theorem C9_utf8_roundtrip (c : Nat) (hle : c ≤ 0x10FFFF)
    (_hsurr : ¬ (0xD800 ≤ c ∧ c ≤ 0xDFFF)) :
    utf8_decode (utf8_unicode_to_char c) = some c := by
  rcases Nat.lt_or_ge c 0x80 with h1 | h1
  · rw [enc_one c h1]
    simp [utf8_decode, h1]
  rcases Nat.lt_or_ge c 0x800 with h2 | h2
  · rw [enc_two c h1 h2]
    simp only [utf8_decode]
    rw [if_neg (by omega), if_neg (by omega), if_pos (by omega)]
    simp only [utf8_decode_cont]
    rw [if_pos (by omega)]
    simp only [Option.some.injEq]
    omega
  rcases Nat.lt_or_ge c 0x10000 with h3 | h3
  · rw [enc_three c h2 h3]
    simp only [utf8_decode]
    rw [if_neg (by omega), if_neg (by omega), if_neg (by omega),
      if_pos (by omega)]
    simp only [utf8_decode_cont]
    rw [if_pos (by omega), if_pos (by omega)]
    simp only [Option.some.injEq]
    omega
  · rw [enc_four c h3 (by omega)]
    simp only [utf8_decode]
    rw [if_neg (by omega), if_neg (by omega), if_neg (by omega),
      if_neg (by omega), if_pos (by omega)]
    simp only [utf8_decode_cont]
    rw [if_pos (by omega), if_pos (by omega), if_pos (by omega)]
    simp only [Option.some.injEq]
    omega

/-- Claim C9, witness: the round trip evaluated at the snowman scalar
`U+2603`. -/
theorem C9_utf8_roundtrip_witness :
    0x2603 ≤ 0x10FFFF ∧ ¬ (0xD800 ≤ 0x2603 ∧ 0x2603 ≤ 0xDFFF) ∧
      utf8_decode (utf8_unicode_to_char 0x2603) = some 0x2603 :=
  ⟨by norm_num, by norm_num,
    C9_utf8_roundtrip 0x2603 (by norm_num) (by norm_num)⟩

/- ---------------- flat-index arithmetic ---------------- -/

theorem index_mod (i j w : Nat) (hj : j < w) : (i * w + j) % w = j := by
  rw [mul_comm i w, Nat.mul_add_mod]
  exact Nat.mod_eq_of_lt hj

theorem index_div (i j w : Nat) (hj : j < w) : (i * w + j) / w = i := by
  rw [mul_comm, Nat.mul_add_div (by omega), Nat.div_eq_of_lt hj, add_zero]

theorem index_lt (i j w h : Nat) (hi : i < h) (hj : j < w) :
    i * w + j < w * h := by
  calc i * w + j < (i + 1) * w := by ring_nf; omega
    _ ≤ h * w := Nat.mul_le_mul_right w hi
    _ = w * h := mul_comm h w

/-- Claim C8: `cellbuf_resize` is a no-op when the dimensions already
match; and the cell at `(j, i)` is preserved for every row
`i < min (oldh, newh)` and column `j < min (oldw, neww)`. -/
theorem C8_cellbuf_resize (buf : cellbuf) (w h : Nat) (u : Nat → tb_cell) :
    (buf.width = w ∧ buf.height = h → cellbuf_resize buf w h u = buf) ∧
    (∀ i j, i < min buf.height h → j < min buf.width w →
      CELL (cellbuf_resize buf w h u) j i = CELL buf j i) := by
  constructor
  · intro hmatch
    unfold cellbuf_resize
    rw [if_pos hmatch]
  · intro i j hi hj
    by_cases hmatch : buf.width = w ∧ buf.height = h
    · unfold cellbuf_resize
      rw [if_pos hmatch]
    · have hjw : j < w := lt_of_lt_of_le hj (min_le_right _ _)
      have hjold : j < buf.width := lt_of_lt_of_le hj (min_le_left _ _)
      have hih : i < h := lt_of_lt_of_le hi (min_le_right _ _)
      unfold cellbuf_resize
      rw [if_neg hmatch]
      simp only [CELL, cellbuf_clear, cellbuf_init]
      rw [index_mod i j w hjw, index_div i j w hjw]
      rw [if_pos ⟨by omega, by omega⟩]

/-- Claim C8, witness: a matching-dimension resize of a concrete 2×2
buffer is the identity, and cell `(1, 1)` survives a resize to 3×3. -/
theorem C8_cellbuf_resize_witness :
    cellbuf_resize ⟨2, 2, fun _ => blankCell⟩ 2 2 uninitJunk
        = ⟨2, 2, fun _ => blankCell⟩ ∧
      CELL (cellbuf_resize ⟨2, 2, fun _ => blankCell⟩ 3 3 uninitJunk) 1 1
        = CELL ⟨2, 2, fun _ => blankCell⟩ 1 1 :=
  ⟨(C8_cellbuf_resize ⟨2, 2, fun _ => blankCell⟩ 2 2 uninitJunk).1
      ⟨rfl, rfl⟩,
    (C8_cellbuf_resize ⟨2, 2, fun _ => blankCell⟩ 3 3 uninitJunk).2 1 1
      (by decide) (by decide)⟩

/-- Claim C10: after a dimension-changing `cellbuf_resize`, every freshly
exposed in-bounds cell (outside the intersection of the old and the new
rectangle) holds `(' ', TB_WHITE, TB_BLACK)`, for every possible content
of the freshly allocated storage. -/
theorem C10_cellbuf_resize_fresh_blank (buf : cellbuf) (w h : Nat)
    (u : Nat → tb_cell) (hne : ¬ (buf.width = w ∧ buf.height = h))
    (i j : Nat) (hj : j < w) (hi : i < h)
    (hout : ¬ (i < min buf.height h ∧ j < min buf.width w)) :
    CELL (cellbuf_resize buf w h u) j i = blankCell := by
  unfold cellbuf_resize
  rw [if_neg hne]
  simp only [CELL, cellbuf_clear, cellbuf_init]
  rw [index_mod i j w hj, index_div i j w hj]
  rw [if_neg (by omega)]
  rw [if_pos (index_lt i j w h hi hj)]

/-- Claim C10, witness: growing a 2×2 buffer to 3×3 leaves the exposed
corner `(2, 2)` blank even when the fresh storage held junk. -/
theorem C10_cellbuf_resize_fresh_blank_witness :
    CELL (cellbuf_resize ⟨2, 2, uninitJunk⟩ 3 3 uninitJunk) 2 2
      = blankCell :=
  C10_cellbuf_resize_fresh_blank ⟨2, 2, uninitJunk⟩ 3 3 uninitJunk
    (by decide) 2 2 (by decide) (by decide) (by decide)

/-- Claim C2, counterexample: on a 2×2 back buffer, `tb_blit(0, 0, 2, 1)`
fits (`x+w ≤ width`, `y+h ≤ height`) yet the whole call is dropped — the
source guard uses `>=`, so a rectangle that exactly touches the right or
bottom edge is rejected. -/
theorem C2_counterexample :
    0 + 2 ≤ state2x2.back_buffer.width ∧
      0 + 1 ≤ state2x2.back_buffer.height ∧
      CELL (tb_blit state2x2 0 0 2 1 cellsA).back_buffer 0 0 = blankCell ∧
      cellsA 0 ≠ blankCell := by
  refine ⟨by decide, by decide, ?_, by decide⟩
  decide

/-- Claim C2, amended: the cells are copied row by row when the rectangle
lies strictly inside the back buffer (`x+w < width` and `y+h < height`,
all other cells untouched); the entire call is dropped as soon as
`x+w ≥ width` or `y+h ≥ height`, including rectangles that exactly touch
the right or bottom edge. -/
theorem C2_tb_blit (s : TermState) (x y w h : Nat) (cells : Nat → tb_cell)
    (hxw : x + w < U32) (hyh : y + h < U32) :
    (x + w < s.back_buffer.width ∧ y + h < s.back_buffer.height →
      (∀ sy j, sy < h → j < w →
        CELL (tb_blit s x y w h cells).back_buffer (x + j) (y + sy)
          = cells (sy * w + j)) ∧
      (∀ a b, a < s.back_buffer.width → b < s.back_buffer.height →
        ¬ (x ≤ a ∧ a < x + w ∧ y ≤ b ∧ b < y + h) →
        CELL (tb_blit s x y w h cells).back_buffer a b
          = CELL s.back_buffer a b)) ∧
    (s.back_buffer.width ≤ x + w ∨ s.back_buffer.height ≤ y + h →
      tb_blit s x y w h cells = s) := by
  constructor
  · rintro ⟨hfitw, hfith⟩
    have hguard : ¬ ((x + w) % U32 ≥ s.back_buffer.width ∨
        (y + h) % U32 ≥ s.back_buffer.height) := by
      rw [Nat.mod_eq_of_lt hxw, Nat.mod_eq_of_lt hyh]
      omega
    constructor
    · intro sy j hsy hj
      have hxj : x + j < s.back_buffer.width := by omega
      unfold tb_blit
      rw [if_neg hguard]
      simp only [CELL]
      rw [index_mod (y + sy) (x + j) _ hxj, index_div (y + sy) (x + j) _ hxj]
      rw [if_pos (by omega)]
      have e1 : y + sy - y = sy := by omega
      have e2 : x + j - x = j := by omega
      rw [e1, e2]
    · intro a b ha hb hout
      unfold tb_blit
      rw [if_neg hguard]
      simp only [CELL]
      rw [index_mod b a _ ha, index_div b a _ ha]
      rw [if_neg (by omega)]
  · intro hdrop
    have hguard : (x + w) % U32 ≥ s.back_buffer.width ∨
        (y + h) % U32 ≥ s.back_buffer.height := by
      rw [Nat.mod_eq_of_lt hxw, Nat.mod_eq_of_lt hyh]
      omega
    unfold tb_blit
    rw [if_pos hguard]

/-- Claim C2, witness: a strictly interior one-cell blit on a concrete
2×2 buffer lands in the back buffer. -/
theorem C2_tb_blit_witness :
    0 + 1 < U32 ∧ 0 + 1 < U32 ∧
      (0 + 1 < state2x2.back_buffer.width ∧
        0 + 1 < state2x2.back_buffer.height) ∧
      CELL (tb_blit state2x2 0 0 1 1 cellsA).back_buffer 0 0 = cellsA 0 :=
  ⟨by norm_num [U32], by norm_num [U32], by decide,
    ((C2_tb_blit state2x2 0 0 1 1 cellsA (by norm_num [U32])
        (by norm_num [U32])).1 (by decide)).1 0 0 (by decide) (by decide)⟩

/-- Claim C3, counterexample: with a resize pending, `tb_clear` performs
resize reconciliation, so it writes to the terminal output stream and
changes the front buffer — the claim's "for every state" fails. -/
theorem C3_counterexample :
    (tb_clear { state2x2 with sigwinch_r := true } (3, 3)
        uninitJunk uninitJunk).output ≠ state2x2.output ∧
      (tb_clear { state2x2 with sigwinch_r := true } (3, 3)
        uninitJunk uninitJunk).front_buffer.width
        ≠ state2x2.front_buffer.width := by
  decide

/-- Claim C3, amended: when no resize is pending, `tb_clear()` fills every
cell of the back buffer with `(' ', white, black)`, writes nothing to the
terminal output stream, and leaves the front buffer (and the back
buffer's dimensions) unchanged. -/
theorem C3_tb_clear (s : TermState) (sz : Nat × Nat)
    (uB uF : Nat → tb_cell) (hs : s.sigwinch_r = false) :
    (tb_clear s sz uB uF).output = s.output ∧
    (tb_clear s sz uB uF).front_buffer = s.front_buffer ∧
    (tb_clear s sz uB uF).back_buffer.width = s.back_buffer.width ∧
    (tb_clear s sz uB uF).back_buffer.height = s.back_buffer.height ∧
    (∀ x y, x < s.back_buffer.width → y < s.back_buffer.height →
      CELL (tb_clear s sz uB uF).back_buffer x y = blankCell) := by
  unfold tb_clear check_sigwinch
  rw [hs, if_neg Bool.false_ne_true]
  refine ⟨rfl, rfl, rfl, rfl, fun x y hx hy => ?_⟩
  simp only [CELL, cellbuf_clear]
  rw [if_pos (index_lt y x _ _ hy hx)]

/-- Claim C3, witness: `tb_clear` on a concrete quiescent 2×2 state. -/
theorem C3_tb_clear_witness :
    state2x2.sigwinch_r = false ∧
      (tb_clear state2x2 (3, 3) uninitJunk uninitJunk).output
        = state2x2.output ∧
      CELL (tb_clear state2x2 (3, 3) uninitJunk uninitJunk).back_buffer 1 1
        = blankCell :=
  ⟨rfl,
    (C3_tb_clear state2x2 (3, 3) uninitJunk uninitJunk rfl).1,
    (C3_tb_clear state2x2 (3, 3) uninitJunk uninitJunk rfl).2.2.2.2
      1 1 (by decide) (by decide)⟩

/-- Claim C4, counterexample: for a fresh attribute pair with
`bg = TB_BLINK = 0x40`, the BLINK bit of the claim is set, yet `send_attr`
emits no BLINK string — the source tests `bg & TB_BOLD` (0x10), not
`bg & TB_BLINK` (0x40). -/
theorem C4_counterexample :
    (7 ≠ state2x2.lastfg ∨ 64 ≠ state2x2.lastbg) ∧
      64 &&& TB_BLINK ≠ 0 ∧
      OutputItem.blink ∉ (send_attr state2x2 7 64).output := by
  decide

/-- Claim C4, amended: whenever `send_attr` acts on a pair `(fg, bg)`
that differs from the cached `(last_fg, last_bg)`, it emits `SGR0`, then
`SGR(fg & 0x0F, bg & 0x0F)`, then the BOLD string exactly when `fg` has
the 0x10 bit set, and the BLINK string exactly when `bg` has the 0x10
bit (the BOLD bit, reused on the background) set; the cache is updated
to `(fg, bg)`. -/
theorem C4_send_attr (s : TermState) (fg bg : Nat)
    (hdiff : fg ≠ s.lastfg ∨ bg ≠ s.lastbg) :
    (send_attr s fg bg).output
        = s.output
          ++ [OutputItem.sgr0, OutputItem.sgr (fg &&& 0x0F) (bg &&& 0x0F)]
          ++ (if fg &&& 0x10 ≠ 0 then [OutputItem.bold] else [])
          ++ (if bg &&& 0x10 ≠ 0 then [OutputItem.blink] else []) ∧
      (send_attr s fg bg).lastfg = fg ∧
      (send_attr s fg bg).lastbg = bg := by
  unfold send_attr
  rw [if_pos hdiff]
  exact ⟨rfl, rfl, rfl⟩

/-- Claim C4, witness: a bold-and-blinking attribute pair against the
sentinel cache emits `SGR0`, `SGR(7, 0)`, BOLD, BLINK. -/
theorem C4_send_attr_witness :
    ((0x17 : Nat) ≠ state2x2.lastfg ∨ (0x50 : Nat) ≠ state2x2.lastbg) ∧
      (send_attr state2x2 0x17 0x50).output
        = state2x2.output
          ++ [OutputItem.sgr0, OutputItem.sgr 0x07 0x00]
          ++ [OutputItem.bold] ++ [OutputItem.blink] :=
  ⟨Or.inl (by decide),
    by
      have h := (C4_send_attr state2x2 0x17 0x50 (Or.inl (by decide))).1
      simpa using h⟩

/-- Claim C5, counterexample: draining a pending resize inside `tb_clear`
leaves `last_fg = TB_WHITE`, not the sentinel `LAST_ATTR_INIT = 0xFFFF`
that the claim requires. -/
theorem C5_counterexample :
    (tb_clear { state2x2 with sigwinch_r := true } (3, 3)
        uninitJunk uninitJunk).lastfg = TB_WHITE ∧
      TB_WHITE ≠ LAST_ATTR_INIT := by
  decide

/-- Claim C5, amended: after resize reconciliation the attribute cache
holds `(TB_WHITE, TB_BLACK)` — set by the `send_clear` performed during
reconciliation — and `(last_x, last_y)` are unchanged; `tb_init` and
`tb_shutdown` leave all four renderer caches untouched.  The sentinel
values exist only as the static initializers at program start. -/
theorem C5_renderer_caches (s : TermState) (sz : Nat × Nat)
    (uB uF : Nat → tb_cell) (env : InitEnv) (hs : s.sigwinch_r = true) :
    (check_sigwinch s sz uB uF).lastfg = TB_WHITE ∧
    (check_sigwinch s sz uB uF).lastbg = TB_BLACK ∧
    (check_sigwinch s sz uB uF).lastx = s.lastx ∧
    (check_sigwinch s sz uB uF).lasty = s.lasty ∧
    (tb_init env s uB uF).2.lastfg = s.lastfg ∧
    (tb_init env s uB uF).2.lastbg = s.lastbg ∧
    (tb_init env s uB uF).2.lastx = s.lastx ∧
    (tb_init env s uB uF).2.lasty = s.lasty ∧
    (tb_shutdown s).lastfg = s.lastfg ∧
    (tb_shutdown s).lastbg = s.lastbg ∧
    (tb_shutdown s).lastx = s.lastx ∧
    (tb_shutdown s).lasty = s.lasty := by
  have hck : (check_sigwinch s sz uB uF).lastfg = TB_WHITE ∧
      (check_sigwinch s sz uB uF).lastbg = TB_BLACK ∧
      (check_sigwinch s sz uB uF).lastx = s.lastx ∧
      (check_sigwinch s sz uB uF).lasty = s.lasty := by
    unfold check_sigwinch send_clear send_attr
    rw [hs]
    simp only [if_true]
    split
    · exact ⟨rfl, rfl, rfl, rfl⟩
    · next h =>
        push_neg at h
        exact ⟨h.1.symm, h.2.symm, rfl, rfl⟩
  have hinit : (tb_init env s uB uF).2.lastfg = s.lastfg ∧
      (tb_init env s uB uF).2.lastbg = s.lastbg ∧
      (tb_init env s uB uF).2.lastx = s.lastx ∧
      (tb_init env s uB uF).2.lasty = s.lasty := by
    unfold tb_init
    dsimp only
    split
    · exact ⟨rfl, rfl, rfl, rfl⟩
    · split
      · exact ⟨rfl, rfl, rfl, rfl⟩
      · exact ⟨rfl, rfl, rfl, rfl⟩
  exact ⟨hck.1, hck.2.1, hck.2.2.1, hck.2.2.2,
    hinit.1, hinit.2.1, hinit.2.2.1, hinit.2.2.2, rfl, rfl, rfl, rfl⟩

/-- Claim C5, witness: the amended cache facts evaluated on a concrete
2×2 state with the resize flag set. -/
theorem C5_renderer_caches_witness :
    ({ state2x2 with sigwinch_r := true } : TermState).sigwinch_r = true ∧
      (check_sigwinch { state2x2 with sigwinch_r := true } (3, 3)
          uninitJunk uninitJunk).lastfg = TB_WHITE ∧
      (check_sigwinch { state2x2 with sigwinch_r := true } (3, 3)
          uninitJunk uninitJunk).lastbg = TB_BLACK :=
  ⟨rfl,
    (C5_renderer_caches { state2x2 with sigwinch_r := true } (3, 3)
        uninitJunk uninitJunk ⟨some 1, some 2, true, (3, 3)⟩ rfl).1,
    (C5_renderer_caches { state2x2 with sigwinch_r := true } (3, 3)
        uninitJunk uninitJunk ⟨some 1, some 2, true, (3, 3)⟩ rfl).2.1⟩

/-- Claim C6, failing input evaluated: when both `fopen` calls succeed
(handles 1 and 2) but `init_term` rejects the terminal, `tb_init` returns
`TB_EUNSUPPORTED_TERMINAL` yet leaves the tty handle globals and the
descriptor numbers populated (they were `none`/0 before the call), and
the opened streams are never closed. -/
theorem C6_init_unsupported_populates_globals :
    (tb_init ⟨some 1, some 2, false, (80, 24)⟩ initialState
        uninitJunk uninitJunk).1 = TB_EUNSUPPORTED_TERMINAL ∧
      (tb_init ⟨some 1, some 2, false, (80, 24)⟩ initialState
        uninitJunk uninitJunk).2.out_file = some 1 ∧
      (tb_init ⟨some 1, some 2, false, (80, 24)⟩ initialState
        uninitJunk uninitJunk).2.in_file = some 2 ∧
      (tb_init ⟨some 1, some 2, false, (80, 24)⟩ initialState
        uninitJunk uninitJunk).2.out_fileno = 1 ∧
      (tb_init ⟨some 1, some 2, false, (80, 24)⟩ initialState
        uninitJunk uninitJunk).2.in_fileno = 2 ∧
      initialState.out_file = none ∧ initialState.in_file = none ∧
      initialState.out_fileno = 0 ∧ initialState.in_fileno = 0 := by
  decide

/-- Claim C7: in the wait-and-fill loop shared by `tb_poll_event` and
`tb_peek_event`, whenever a read returns `r > 0` bytes and the ring's free
space is less than `r`, the routine returns `-1`, the just-read bytes are
discarded (never pushed), and the ring — hence every already-buffered
byte — is unchanged; likewise for `wait_fill_event` as a whole when the
initial extraction fails. -/
theorem C7_input_overflow
    (extract : ringbuffer → Option (tb_key_event × ringbuffer))
    (r : ringbuffer) (bs : List Nat) (rest : List ReadOutcome)
    (hne : bs ≠ []) (hov : ringbuffer_free_space r < bs.length) :
    wfe_loop extract r (ReadOutcome.bytes bs :: rest) = (-1, r, none) ∧
      (extract r = none →
        wait_fill_event extract r (ReadOutcome.bytes bs :: rest)
          = (-1, r, none)) := by
  have hlen : ¬ bs.length = 0 := by
    simpa using hne
  have h1 : wfe_loop extract r (ReadOutcome.bytes bs :: rest)
      = (-1, r, none) := by
    unfold wfe_loop
    rw [if_neg hlen, if_pos hov]
  refine ⟨h1, fun hext => ?_⟩
  unfold wait_fill_event
  rw [hext]
  exact h1

/-- Claim C7, witness: a two-byte read into a ring with one free byte. -/
theorem C7_input_overflow_witness :
    ([5, 6] : List Nat) ≠ [] ∧
      ringbuffer_free_space ⟨[1, 2], 3⟩ < ([5, 6] : List Nat).length ∧
      wfe_loop (fun _ => none) ⟨[1, 2], 3⟩
          [ReadOutcome.bytes [5, 6]] = (-1, ⟨[1, 2], 3⟩, none) ∧
      wait_fill_event (fun _ => none) ⟨[1, 2], 3⟩
          [ReadOutcome.bytes [5, 6]] = (-1, ⟨[1, 2], 3⟩, none) :=
  ⟨by decide, by decide,
    (C7_input_overflow (fun _ => none) ⟨[1, 2], 3⟩ [5, 6] []
        (by decide) (by decide)).1,
    (C7_input_overflow (fun _ => none) ⟨[1, 2], 3⟩ [5, 6] []
        (by decide) (by decide)).2 rfl⟩

theorem send_attr_frame (s : TermState) (fg bg : Nat) :
    (send_attr s fg bg).front_buffer = s.front_buffer ∧
      (send_attr s fg bg).back_buffer = s.back_buffer := by
  unfold send_attr
  split <;> exact ⟨rfl, rfl⟩

theorem send_char_frame (s : TermState) (x y c : Nat) :
    (send_char s x y c).front_buffer = s.front_buffer ∧
      (send_char s x y c).back_buffer = s.back_buffer := by
  unfold send_char
  dsimp only
  split <;> exact ⟨rfl, rfl⟩

theorem check_sigwinch_no_resize (s : TermState) (sz : Nat × Nat)
    (uB uF : Nat → tb_cell) (hs : s.sigwinch_r = false) :
    check_sigwinch s sz uB uF = s := by
  unfold check_sigwinch
  rw [hs, if_neg Bool.false_ne_true]

theorem present_cell_back (s : TermState) (x y : Nat) :
    (present_cell s x y).back_buffer = s.back_buffer := by
  unfold present_cell
  dsimp only
  split
  · rfl
  · rw [(send_char_frame (send_attr s _ _) x y _).2,
      (send_attr_frame s _ _).2]

theorem present_cell_front (s : TermState) (x y : Nat) :
    (present_cell s x y).front_buffer.width = s.front_buffer.width ∧
      (present_cell s x y).front_buffer.height = s.front_buffer.height ∧
      (present_cell s x y).front_buffer.cells
          (y * s.front_buffer.width + x) = CELL s.back_buffer x y ∧
      (∀ k, k ≠ y * s.front_buffer.width + x →
        (present_cell s x y).front_buffer.cells k
          = s.front_buffer.cells k) := by
  have hfr : (send_char (send_attr s (CELL s.back_buffer x y).fg
        (CELL s.back_buffer x y).bg) x y
        (CELL s.back_buffer x y).ch).front_buffer = s.front_buffer := by
    rw [(send_char_frame _ x y _).1, (send_attr_frame s _ _).1]
  unfold present_cell
  dsimp only
  split
  · next heq =>
      refine ⟨rfl, rfl, ?_, fun k _ => rfl⟩
      rw [heq]
      rfl
  · rw [hfr]
    refine ⟨rfl, rfl, ?_, fun k hk => ?_⟩
    · show (if y * s.front_buffer.width + x = y * s.front_buffer.width + x
          then CELL s.back_buffer x y
          else s.front_buffer.cells (y * s.front_buffer.width + x))
        = CELL s.back_buffer x y
      rw [if_pos rfl]
    · show (if k = y * s.front_buffer.width + x
          then CELL s.back_buffer x y
          else s.front_buffer.cells k)
        = s.front_buffer.cells k
      rw [if_neg hk]


theorem present_cols_spec (y : Nat) (s : TermState) (n : Nat) :
    (present_cols y s n).back_buffer = s.back_buffer ∧
      (present_cols y s n).front_buffer.width = s.front_buffer.width ∧
      (present_cols y s n).front_buffer.height = s.front_buffer.height ∧
      (∀ x, x < n →
        (present_cols y s n).front_buffer.cells
            (y * s.front_buffer.width + x) = CELL s.back_buffer x y) ∧
      (∀ k, (∀ x, x < n → k ≠ y * s.front_buffer.width + x) →
        (present_cols y s n).front_buffer.cells k
          = s.front_buffer.cells k) := by
  induction n with
  | zero =>
      exact ⟨rfl, rfl, rfl, fun x hx => absurd hx (Nat.not_lt_zero x),
        fun k _ => rfl⟩
  | succ n ih =>
      obtain ⟨ihb, ihw, ihh, ihdone, ihother⟩ := ih
      have hcb := present_cell_back (present_cols y s n) n y
      have hcf := present_cell_front (present_cols y s n) n y
      refine ⟨?_, ?_, ?_, ?_, ?_⟩
      · show (present_cell (present_cols y s n) n y).back_buffer
            = s.back_buffer
        rw [hcb, ihb]
      · show (present_cell (present_cols y s n) n y).front_buffer.width
            = s.front_buffer.width
        rw [hcf.1, ihw]
      · show (present_cell (present_cols y s n) n y).front_buffer.height
            = s.front_buffer.height
        rw [hcf.2.1, ihh]
      · intro x hx
        show (present_cell (present_cols y s n) n y).front_buffer.cells
            (y * s.front_buffer.width + x) = CELL s.back_buffer x y
        rcases Nat.lt_or_ge x n with hxn | hxn
        · rw [hcf.2.2.2 _ (by rw [ihw]; omega), ihdone x hxn]
        · have hxeq : x = n := by omega
          subst hxeq
          have := hcf.2.2.1
          rw [ihw] at this
          rw [this, ihb]
      · intro k hk
        show (present_cell (present_cols y s n) n y).front_buffer.cells k
            = s.front_buffer.cells k
        rw [hcf.2.2.2 k (by rw [ihw]; exact hk n (Nat.lt_succ_self n)),
          ihother k (fun x hx => hk x (Nat.lt_succ_of_lt hx))]

theorem present_rows_spec (w : Nat) (s : TermState) (m : Nat)
    (hw : w = s.front_buffer.width) :
    (present_rows w s m).back_buffer = s.back_buffer ∧
      (present_rows w s m).front_buffer.width = s.front_buffer.width ∧
      (present_rows w s m).front_buffer.height = s.front_buffer.height ∧
      (∀ x y, x < w → y < m →
        (present_rows w s m).front_buffer.cells
            (y * s.front_buffer.width + x) = CELL s.back_buffer x y) := by
  induction m with
  | zero =>
      exact ⟨rfl, rfl, rfl, fun x y _ hy => absurd hy (Nat.not_lt_zero y)⟩
  | succ m ih =>
      obtain ⟨ihb, ihw, ihh, ihdone⟩ := ih
      have hcs := present_cols_spec m (present_rows w s m) w
      obtain ⟨csb, csw, csh, csdone, csother⟩ := hcs
      refine ⟨?_, ?_, ?_, ?_⟩
      · show (present_cols m (present_rows w s m) w).back_buffer
            = s.back_buffer
        rw [csb, ihb]
      · show (present_cols m (present_rows w s m) w).front_buffer.width
            = s.front_buffer.width
        rw [csw, ihw]
      · show (present_cols m (present_rows w s m) w).front_buffer.height
            = s.front_buffer.height
        rw [csh, ihh]
      · intro x y hx hy
        show (present_cols m (present_rows w s m) w).front_buffer.cells
            (y * s.front_buffer.width + x) = CELL s.back_buffer x y
        rcases Nat.lt_or_ge y m with hym | hym
        · have hne : ∀ x2, x2 < w →
              y * s.front_buffer.width + x
                ≠ m * (present_rows w s m).front_buffer.width + x2 := by
            intro x2 hx2
            rw [ihw, ← hw]
            have h1 : y * w + x < (y + 1) * w := by
              have : x < w := hx
              calc y * w + x < y * w + w := by omega
                _ = (y + 1) * w := by ring
            have h2 : (y + 1) * w ≤ m * w := Nat.mul_le_mul_right w (by omega)
            omega
          rw [csother _ hne]
          exact ihdone x y hx hym
        · have hyeq : y = m := by omega
          subst hyeq
          have h1 := csdone x hx
          rw [ihw] at h1
          rw [h1, ihb]


theorem tb_put_cell_frame (s : TermState) (x y : Nat) (cell : tb_cell) :
    (tb_put_cell s x y cell).back_buffer.width = s.back_buffer.width ∧
      (tb_put_cell s x y cell).back_buffer.height = s.back_buffer.height ∧
      (tb_put_cell s x y cell).front_buffer = s.front_buffer ∧
      (tb_put_cell s x y cell).sigwinch_r = s.sigwinch_r := by
  unfold tb_put_cell
  split <;> exact ⟨rfl, rfl, rfl, rfl⟩

theorem tb_blit_frame (s : TermState) (x y w h : Nat)
    (cells : Nat → tb_cell) :
    (tb_blit s x y w h cells).back_buffer.width = s.back_buffer.width ∧
      (tb_blit s x y w h cells).back_buffer.height
        = s.back_buffer.height ∧
      (tb_blit s x y w h cells).front_buffer = s.front_buffer ∧
      (tb_blit s x y w h cells).sigwinch_r = s.sigwinch_r := by
  unfold tb_blit
  split <;> exact ⟨rfl, rfl, rfl, rfl⟩

theorem applyWrite_frame (s : TermState) (op : WriteOp) :
    (applyWrite s op).back_buffer.width = s.back_buffer.width ∧
      (applyWrite s op).back_buffer.height = s.back_buffer.height ∧
      (applyWrite s op).front_buffer = s.front_buffer ∧
      (applyWrite s op).sigwinch_r = s.sigwinch_r := by
  cases op with
  | put x y cell => exact tb_put_cell_frame s x y cell
  | change x y ch fg bg => exact tb_put_cell_frame s x y ⟨ch, fg, bg⟩
  | blit x y w h cells => exact tb_blit_frame s x y w h cells

theorem applyWrites_frame (s : TermState) (ws : List WriteOp) :
    (applyWrites s ws).back_buffer.width = s.back_buffer.width ∧
      (applyWrites s ws).back_buffer.height = s.back_buffer.height ∧
      (applyWrites s ws).front_buffer = s.front_buffer ∧
      (applyWrites s ws).sigwinch_r = s.sigwinch_r := by
  induction ws generalizing s with
  | nil => exact ⟨rfl, rfl, rfl, rfl⟩
  | cons op ops ih =>
      have h1 := applyWrite_frame s op
      have h2 := ih (applyWrite s op)
      exact ⟨h2.1.trans h1.1, h2.2.1.trans h1.2.1,
        h2.2.2.1.trans h1.2.2.1, h2.2.2.2.trans h1.2.2.2⟩

/-- Claim C1: for every sequence of `tb_put_cell` / `tb_change_cell` /
`tb_blit` writes that are in bounds, followed by one `tb_present` with no
resize pending (given the session invariant that both buffers share their
dimensions), every cell of the front buffer equals the corresponding cell
of the back buffer.  (The proof does not even need the in-bounds
restriction: out-of-bounds writes are dropped.) -/
theorem C1_present_syncs_buffers (s : TermState) (ws : List WriteOp)
    (hs : s.sigwinch_r = false)
    (_hW : s.back_buffer.width = s.front_buffer.width)
    (_hH : s.back_buffer.height = s.front_buffer.height)
    (_hin : ∀ op ∈ ws,
      op.inBounds s.back_buffer.width s.back_buffer.height)
    (sz : Nat × Nat) (uB uF : Nat → tb_cell) :
    ∀ x y,
      x < (tb_present (applyWrites s ws) sz uB uF).front_buffer.width →
      y < (tb_present (applyWrites s ws) sz uB uF).front_buffer.height →
      CELL (tb_present (applyWrites s ws) sz uB uF).front_buffer x y
        = CELL (tb_present (applyWrites s ws) sz uB uF).back_buffer x y := by
  intro x y hx hy
  have fsig := (applyWrites_frame s ws).2.2.2
  set t := applyWrites s ws with ht
  have hpres : tb_present t sz uB uF
      = present_rows t.front_buffer.width t t.front_buffer.height := by
    unfold tb_present
    rw [check_sigwinch_no_resize t sz uB uF (by rw [fsig, hs])]
  obtain ⟨rb, rw2, rh, rdone⟩ :=
    present_rows_spec t.front_buffer.width t t.front_buffer.height rfl
  rw [hpres] at hx hy ⊢
  rw [rw2] at hx
  rw [rh] at hy
  have hxw : x < t.front_buffer.width := hx
  have hyh : y < t.front_buffer.height := hy
  unfold CELL
  rw [rb, rw2]
  exact rdone x y hxw hyh


/-- Claim C1, witness: one in-bounds `tb_change_cell` on a quiescent 2×2
session followed by `tb_present`, checked at cell `(0, 0)`. -/
theorem C1_present_syncs_buffers_witness :
    state2x2.sigwinch_r = false ∧
      state2x2.back_buffer.width = state2x2.front_buffer.width ∧
      state2x2.back_buffer.height = state2x2.front_buffer.height ∧
      (∀ op ∈ [WriteOp.change 0 0 65 7 0],
        WriteOp.inBounds state2x2.back_buffer.width
          state2x2.back_buffer.height op) ∧
      CELL (tb_present (applyWrites state2x2 [WriteOp.change 0 0 65 7 0])
          (9, 9) uninitJunk uninitJunk).front_buffer 0 0
        = CELL (tb_present (applyWrites state2x2 [WriteOp.change 0 0 65 7 0])
          (9, 9) uninitJunk uninitJunk).back_buffer 0 0 :=
  ⟨rfl, rfl, rfl,
    fun op hop => by
      simp only [List.mem_singleton] at hop
      subst hop
      exact ⟨by decide, by decide⟩,
    C1_present_syncs_buffers state2x2 [WriteOp.change 0 0 65 7 0] rfl rfl rfl
      (fun op hop => by
        simp only [List.mem_singleton] at hop
        subst hop
        exact ⟨by decide, by decide⟩)
      (9, 9) uninitJunk uninitJunk 0 0 (by decide) (by decide)⟩

end Termbox
